import Mathlib

/-!
Verification of the funnel-chart geometry and interaction engine of
`src/src/plugins/jqplot.funnelRenderer.js`.

The JavaScript numeric code is embedded over `ℚ` (exact arithmetic as the
idealisation of the script's binary floats).  The renderer computes
`this._angle = Math.atan(u)` once and afterwards only ever uses
`Math.tan(this._angle)`; since `tan (atan u) = u`, the embedding carries the
rational slope `u` directly and never needs transcendental functions.
Division by zero in `ℚ` yields `0`; every such corner is noted where it is
modelled.
-/

namespace Funnel

/-- A data point of the series: `(label, value)`.  x values are labels,
y values give the section size (source header comment). -/
abbrev DataPoint := String × ℚ

/-- A point of the canvas, `(x, y)` in pixels. -/
abbrev Point := ℚ × ℚ

/-- The comparator passed to `this.data.sort(function (a, b) { return b[1] - a[1]; })`
(line 146): `a` precedes `b` exactly when `b[1] - a[1] ≤ 0`, i.e. descending
by value. -/
def descValue (a b : DataPoint) : Prop := b.2 ≤ a.2

instance : DecidableRel descValue :=
  fun a b => inferInstanceAs (Decidable (b.2 ≤ a.2))

instance : IsTotal DataPoint descValue :=
  ⟨fun a b => le_total b.2 a.2⟩

instance : IsTrans DataPoint descValue :=
  ⟨fun _ _ _ h1 h2 => le_trans h2 h1⟩

/-- The part of `FunnelRenderer.prototype.init` (lines 144-146) that stores the
series data: `this._unorderedData` keeps a deep copy of the incoming data and
`this.data` is sorted descending by value.  The JS engine's comparator sort is
modelled by `List.insertionSort` over the comparator's relation. -/
structure InitData where
  data : List DataPoint
  unorderedData : List DataPoint
deriving DecidableEq

/-- `init`'s data handling (lines 144-146 of the source). -/
def funnelInitData (d : List DataPoint) : InitData :=
  { data := List.insertionSort descValue d
    unorderedData := d }

/-- Sum of the `y` values of the series data, as accumulated by the first loop
of `setGridData` (lines 168-173). -/
def sumValues (d : List DataPoint) : ℚ := (d.map (fun p => p.2)).sum

/-- `FunnelRenderer.prototype.setGridData` (lines 166-184): copies the data,
then divides every `y` value by the sum so that areas are proportional.  The
source performs the division unconditionally; there is no check for a zero or
negative sum (in JS a zero sum produces `NaN`/`Infinity`; in the `ℚ` model
`x / 0 = 0`).  The returned list is what the source stores in
`this.gridData`. -/
def setGridData (d : List DataPoint) : List DataPoint :=
  let sum := sumValues d
  let td := d.map (fun p => (p.1, p.2))
  td.map (fun p => (p.1, p.2 / sum))

/-- `FunnelRenderer.prototype.makeGridData` (lines 186-204): identical body to
`setGridData`; the `dataParam` argument (the source's `data` parameter) is
never read — the loops run over `this.data` — and the normalized list is
returned instead of stored. -/
def makeGridData (dataParam : List DataPoint) (d : List DataPoint) : List DataPoint :=
  let sum := sumValues d
  let td := d.map (fun p => (p.1, p.2))
  td.map (fun p => (p.1, p.2 / sum))

/-- Highlight-related options as passed by the user; `none` models a JS
`null`/`undefined` (unspecified) option. -/
structure HighlightOptions where
  highlightMouseOver : Option Bool
  highlightMouseDown : Option Bool
deriving DecidableEq

/-- Lines 123-128 of `init`: if the options enable `highlightMouseDown` and do
not specify `highlightMouseOver` (`== null`), the latter is forced to `false`
before `$.extend(true, this, options)` merges the options over the defaults
(`highlightMouseOver = true`, `highlightMouseDown = false`).  Returns the pair
`(highlightMouseOver, highlightMouseDown)` of the series after `init`. -/
def initHighlight (o : HighlightOptions) : Bool × Bool :=
  let o' := if o.highlightMouseDown = some true ∧ o.highlightMouseOver = none
            then { o with highlightMouseOver := some false } else o
  (o'.highlightMouseOver.getD true, o'.highlightMouseDown.getD false)

/-- The highlight flags of one plot series, together with whether its renderer
is the funnel renderer. -/
structure SeriesHL where
  isFunnel : Bool
  highlightMouseOver : Bool
  highlightMouseDown : Bool
deriving DecidableEq

/-- The `postInit` hook (lines 701-715): for every series whose renderer is the
funnel renderer, `highlightMouseDown` is forced to `false` whenever
`highlightMouseOver` is set. -/
def postInitHook (ss : List SeriesHL) : List SeriesHL :=
  ss.map (fun s =>
    if s.isFunnel ∧ s.highlightMouseOver
    then { s with highlightMouseDown := false } else s)

/-- The solver's convergence tolerance (`var tolerance = 0.0001`, line 319). -/
def tolerance : ℚ := 1 / 10000

/-- State of the per-section fixed-point loop (lines 321-332): `len` is
`this._lengths[i]`, `err` and `count` are the loop's variables, `prev` records
the value of `lengths[i]` before the latest update (the loop's `guess` at the
moment `err` was computed; at `count = 0` it is just the initial guess), and
`nextBase` is the value the loop body has written to `this._bases[i+1]`
(`none` until the first iteration runs, mirroring the JS `undefined`). -/
structure IterState where
  len : ℚ
  err : ℚ
  prev : ℚ
  nextBase : Option ℚ
  count : ℕ
deriving Repr, DecidableEq

/-- One update of the loop body (line 327):
`this._lengths[i] = this._areas[i]/(this._bases[i] - this._lengths[i] * Math.tan(this._angle))`. -/
def iterNext (area base t L : ℚ) : ℚ := area / (base - L * t)

/-- The `while (err > this._lengths[i]*tolerance && count < 100)` loop
(lines 326-332), with `fuel = 100 - count` so that `count < 100` is exactly
`fuel > 0`.  Each pass updates the length, recomputes `err` against the
previous guess, writes `bases[i+1] = bases[i] - 2*lengths[i]*tan(angle)`
(line 329) and increments `count`. -/
def lengthIterGo (area base t : ℚ) : ℕ → IterState → IterState
  | 0, s => s
  | fuel+1, s =>
    if s.len * tolerance < s.err then
      lengthIterGo area base t fuel
        ⟨iterNext area base t s.len,
         |iterNext area base t s.len - s.len|,
         s.len,
         some (base - 2 * iterNext area base t s.len * t),
         s.count + 1⟩
    else s

/-- Lines 322-332 for one section: `guess = areas[i]/bases[i]; err = 999999;
lengths[i] = guess; count = 0;` followed by the iteration loop. -/
def solveLength (area base t : ℚ) : IterState :=
  lengthIterGo area base t 100 ⟨area / base, 999999, area / base, none, 0⟩

/-- The pure fixed-point sequence described by the loop: `x₀ = area/base`,
`x_{k+1} = area / (base - x_k * tan angle)`.  Specification vocabulary for the
theorems about `solveLength`. -/
def fpSeq (area base t : ℚ) : ℕ → ℚ
  | 0 => area / base
  | k+1 => iterNext area base t (fpSeq area base t k)

/-- The loop's `err` variable after `k` iterations: the sentinel `999999`
initially, and `|x_k - x_{k-1}|` afterwards. -/
def fpErr (area base t : ℚ) : ℕ → ℚ
  | 0 => 999999
  | k+1 => |fpSeq area base t (k+1) - fpSeq area base t k|

/-- The `prev` component after `k` iterations. -/
def fpPrev (area base t : ℚ) : ℕ → ℚ
  | 0 => area / base
  | k+1 => fpSeq area base t k

/-- The `bases[i+1]` cell after `k` iterations. -/
def fpNB (area base t : ℚ) : ℕ → Option ℚ
  | 0 => none
  | k+1 => some (base - 2 * fpSeq area base t (k+1) * t)

/-- The whole loop state after `k` iterations. -/
def stateAt (area base t : ℚ) (k : ℕ) : IterState :=
  ⟨fpSeq area base t k, fpErr area base t k, fpPrev area base t k,
   fpNB area base t k, k⟩

/-- Index at which the loop stops when started after `k` iterations with
`fuel` remaining: the first `j ≥ k` whose error meets the tolerance, capped at
`k + fuel`. -/
def stopIdx (area base t : ℚ) : ℕ → ℕ → ℕ
  | k, 0 => k
  | k, fuel+1 =>
    if fpSeq area base t k * tolerance < fpErr area base t k
    then stopIdx area base t (k+1) fuel else k

/-- Geometry inputs of `FunnelRenderer.prototype.draw` (lines 251-311):
canvas width/height (`ctx.canvas.width/height`) and the four resolved offsets
`loff`, `toff`, `roff`, `boff` (padding plus the legend-placement offsets of
lines 255-298, taken here as already-resolved opaque inputs), together with
the renderer options `widthRatio` and `sectionMargin`. -/
structure FunnelConfig where
  cw : ℚ
  ch : ℚ
  loff : ℚ
  toff : ℚ
  roff : ℚ
  boff : ℚ
  widthRatio : ℚ
  sectionMargin : ℚ
deriving Repr, DecidableEq

/-- `this._bases[0] = cw - loff - roff` (line 305). -/
def base0 (c : FunnelConfig) : ℚ := c.cw - c.loff - c.roff

/-- `var ltot = this._length = ch - toff - boff` (line 306). -/
def plotHeight (c : FunnelConfig) : ℚ := c.ch - c.toff - c.boff

/-- `this._atot = ltot/2 * (bases[0] + bases[0]*widthRatio)` (line 309). -/
def atot (c : FunnelConfig) : ℚ :=
  plotHeight c / 2 * (base0 c + base0 c * c.widthRatio)

/-- `this._angle = Math.atan((bases[0] - hend)/2/ltot)` with
`hend = bases[0]*widthRatio` (lines 308, 311).  The code only ever consumes
`Math.tan(this._angle)`, and `tan (atan u) = u`, so the embedding carries the
tangent directly. -/
def tanAngle (c : FunnelConfig) : ℚ :=
  (base0 c - base0 c * c.widthRatio) / 2 / plotHeight c

/-- `this._areas.push(gd[i][1] * this._atot)` (lines 313-315); `gd` holds the
normalized weights produced by `setGridData`. -/
def areasOf (c : FunnelConfig) (gd : List ℚ) : List ℚ :=
  gd.map (fun w => w * atot c)

/-- The per-section loop of lines 321-334: each section is solved with the
base produced by the previous section's loop (`this._bases[i+1]`, written on
line 329).  Pairs each section's starting base with its final loop state.  If
a loop ran zero iterations `bases[i+1]` stays unassigned in JS (`undefined`,
poisoning the next section with `NaN`); that unreachable corner (it needs an
initial guess of at least `999999/tolerance` pixels) is modelled by `.getD 0`. -/
def layoutSections (t : ℚ) : ℚ → List ℚ → List (ℚ × IterState)
  | _, [] => []
  | base, a :: as =>
    let s := solveLength a base t
    (base, s) :: layoutSections t (s.nextBase.getD 0) as

/-- The solved sections of a draw call on config `c` and normalized weights
`gd`. -/
def sectionsOf (c : FunnelConfig) (gd : List ℚ) : List (ℚ × IterState) :=
  layoutSections (tanAngle c) (base0 c) (areasOf c gd)

/-- `this._lengths` after the solver loop. -/
def lengthsOf (c : FunnelConfig) (gd : List ℚ) : List ℚ :=
  (sectionsOf c gd).map (fun p => p.2.len)

/-- `this._bases[this._bases.length-1]`: the base left after the last
section's loop (or `bases[0]` for empty data). -/
def lastBase (c : FunnelConfig) (gd : List ℚ) : ℚ :=
  (sectionsOf c gd).foldl (fun _ p => p.2.nextBase.getD 0) (base0 c)

/-- A quadrilateral as pushed on lines 381-394: `v[0]` top-left, `v[1]`
top-right, `v[2]` bottom-right, `v[3]` bottom-left. -/
structure Quad where
  tl : Point
  tr : Point
  br : Point
  bl : Point
deriving Repr, DecidableEq

instance : Inhabited Quad := ⟨⟨(0, 0), (0, 0), (0, 0), (0, 0)⟩⟩

/-- The edge-line evaluation shared (with identical bodies) by `findleft` /
`findright` in `draw` (lines 346-360) and `findedge` in `checkIntersection`
(lines 810-816): the line through `p1` and `p2` in slope/intercept form,
evaluated at height `l + p1.y`. -/
def findedge (l : ℚ) (p1 p2 : Point) : Point :=
  let m := (p1.2 - p2.2) / (p1.1 - p2.1)
  let b := p1.2 - m * p1.1
  let y := l + p1.2
  ((y - b) / m, y)

/-- `p0`: top-left corner of the whole trapezoid envelope (line 340). -/
def p0 (c : FunnelConfig) : Point := (c.loff, c.toff)

/-- `p1`: top-right corner (line 341). -/
def p1 (c : FunnelConfig) : Point := (c.loff + base0 c, c.toff)

/-- `p2`: bottom-left corner (line 342), using the final base. -/
def p2 (c : FunnelConfig) (gd : List ℚ) : Point :=
  (c.loff + (base0 c - lastBase c gd) / 2, c.toff + plotHeight c)

/-- `p3`: bottom-right corner (line 343). -/
def p3 (c : FunnelConfig) (gd : List ℚ) : Point :=
  ((p2 c gd).1 + lastBase c gd, (p2 c gd).2)

/-- `findleft` (lines 346-352). -/
def findleft (c : FunnelConfig) (gd : List ℚ) (l : ℚ) : Point :=
  findedge l (p0 c) (p2 c gd)

/-- `findright` (lines 354-360). -/
def findright (c : FunnelConfig) (gd : List ℚ) (l : ℚ) : Point :=
  findedge l (p1 c) (p3 c gd)

/-- The `adj` value used for the top edge of section `i` of `n` (lines
369-380).  The source first runs `if (i == 0) { adj = 0; }` and then the
chain `if (i == 1) ... else if (i > 0 && i < n-1) ... else if (i == n-1) ...`;
for `i = 0` with `n ≥ 2` no chain branch fires and the `0` survives, while
for `i = 0` with `n = 1` the `i == n-1` branch overwrites it with `2*sm/3`;
for `i ≥ 1` exactly one chain branch fires, so `adj` is a pure function of
`(i, n)` despite being a mutable variable in the source. -/
def topAdjCode (sm : ℚ) (n i : ℕ) : ℚ :=
  if i = 1 then sm / 3
  else if 0 < i ∧ i < n - 1 then sm / 2
  else if i = n - 1 then 2 * sm / 3
  else 0

/-- The `adj` value used for the bottom edge of section `i` of `n` (lines
384-392): `-2*sm/3` for the first section, `-sm/2` for internal sections,
`0` for the last (the branches cover every `i < n`). -/
def botAdjCode (sm : ℚ) (n i : ℕ) : ℚ :=
  if i = 0 then -(2 * sm) / 3
  else if 0 < i ∧ i < n - 1 then -(sm / 2)
  else if i = n - 1 then 0
  else 0

/-- The vertex loop of lines 365-396: for each section, push
`findleft(h+adj)`, `findright(h+adj)`, advance `h` by the section length,
then push `findright(h+adj)`, `findleft(h+adj)` with the bottom `adj`. -/
def verticesGo (fl fr : ℚ → Point) (sm : ℚ) (n : ℕ) : ℕ → ℚ → List ℚ → List Quad
  | _, _, [] => []
  | i, h, L :: Ls =>
    ⟨fl (h + topAdjCode sm n i), fr (h + topAdjCode sm n i),
     fr (h + L + botAdjCode sm n i), fl (h + L + botAdjCode sm n i)⟩
      :: verticesGo fl fr sm n (i+1) (h + L) Ls

/-- `this._vertices` after the draw call. -/
def verticesOf (c : FunnelConfig) (gd : List ℚ) : List Quad :=
  verticesGo (findleft c gd) (findright c gd) c.sectionMargin gd.length
    0 0 (lengthsOf c gd)

/-- The per-section test of `checkIntersection` (line 823):
`y >= cv[0][1] && y <= cv[3][1] && x >= lex[0] && x <= rex[0]`, where `lex`
and `rex` are the outer envelope lines through the first section's top
corners and the last section's bottom corners (lines 819-820), evaluated by
`findedge` at the pointer's `y` — not the section's own inset slanted
edges. -/
abbrev hitHere (x y : ℚ) (vfirst vlast cv : Quad) : Prop :=
  cv.tl.2 ≤ y ∧ y ≤ cv.bl.2 ∧
  (findedge y vfirst.tl vlast.bl).1 ≤ x ∧ x ≤ (findedge y vfirst.tr vlast.br).1

/-- The `for` loop of `checkIntersection` (lines 821-826), returning the index
of the first matching section. -/
def checkIntersectionGo (x y : ℚ) (vfirst vlast : Quad) :
    ℕ → List Quad → Option ℕ
  | _, [] => none
  | i, cv :: rest =>
    if hitHere x y vfirst vlast cv then some i
    else checkIntersectionGo x y vfirst vlast (i+1) rest

/-- `checkIntersection` (lines 795-829) as a function of the pointer position
and the vertex list: returns the matched section index, `null` (`none`) when
no section matches.  (The source returns the triple
`[s.index, i, s.data[i]]`; the model returns the section index `i`.  On an
empty vertex list the source would fault dereferencing `v[0]`; the model
returns `none`, and every theorem below assumes at least one section.) -/
def checkIntersection (x y : ℚ) (v : List Quad) : Option ℕ :=
  match v with
  | [] => none
  | f :: rest =>
    checkIntersectionGo x y f ((f :: rest).getLast (List.cons_ne_nil f rest))
      0 (f :: rest)

/-- Centroid of a section quadrilateral: the average of its four corners
(specification vocabulary for the hit-test round-trip property). -/
def centroid (q : Quad) : Point :=
  ((q.tl.1 + q.tr.1 + q.br.1 + q.bl.1) / 4,
   (q.tl.2 + q.tr.2 + q.br.2 + q.bl.2) / 4)

/-- Sum of the solved section heights (`lsum` of line 333). -/
def secLengthSum (l : List (ℚ × IterState)) : ℚ :=
  (l.map (fun p => p.2.len)).sum

/-- Sum of the squared section heights (used to express the solver's
accumulated area error). -/
def secSqSum (l : List (ℚ × IterState)) : ℚ :=
  (l.map (fun p => p.2.len * p.2.len)).sum

/-- Concrete configuration A: a 140×140 canvas with the default 20px padding
on every side, `widthRatio = 3/4`, `sectionMargin = 6`. -/
def cfgA : FunnelConfig := ⟨140, 140, 20, 20, 20, 20, 3/4, 6⟩

/-- Concrete three-point data series for configuration A. -/
def dataA : List DataPoint := [("A", 30), ("B", 20), ("C", 10)]

/-- Normalized weights of `dataA`: `[1/2, 1/3, 1/6]`. -/
def gdA : List ℚ := (setGridData dataA).map (fun p => p.2)

/-- Concrete configuration B: a 120×120 canvas with 10px padding,
`widthRatio = 9/10`, `sectionMargin = 0`. -/
def cfgB : FunnelConfig := ⟨120, 120, 10, 10, 10, 10, 9/10, 0⟩

/-- Concrete two-point data series for configuration B. -/
def dataB : List DataPoint := [("X", 3), ("Y", 1)]

/-- Normalized weights of `dataB`: `[3/4, 1/4]`. -/
def gdB : List ℚ := (setGridData dataB).map (fun p => p.2)

/-- Concrete configuration S for the single-section funnel: a 140×140 canvas
with the default 20px padding, the default `widthRatio = 1/5` and the default
`sectionMargin = 6`. -/
def cfgS : FunnelConfig := ⟨140, 140, 20, 20, 20, 20, 1/5, 6⟩

end Funnel

namespace Funnel

theorem lengthIterGo_stateAt (area base t : ℚ) :
    ∀ (fuel k : ℕ),
      lengthIterGo area base t fuel (stateAt area base t k)
        = stateAt area base t (stopIdx area base t k fuel) := by
  intro fuel
  induction fuel with
  | zero => intro k; rfl
  | succ n ih =>
    intro k
    by_cases h : fpSeq area base t k * tolerance < fpErr area base t k
    · have step :
          lengthIterGo area base t (n+1) (stateAt area base t k)
            = lengthIterGo area base t n (stateAt area base t (k+1)) := by
        rw [lengthIterGo]
        exact if_pos h
      rw [step, ih, stopIdx, if_pos h]
    · have step :
          lengthIterGo area base t (n+1) (stateAt area base t k)
            = stateAt area base t k := by
        rw [lengthIterGo]
        exact if_neg h
      rw [step, stopIdx, if_neg h]

theorem solveLength_eq_stateAt (area base t : ℚ) :
    solveLength area base t = stateAt area base t (stopIdx area base t 0 100) := by
  have h0 : (⟨area / base, 999999, area / base, none, 0⟩ : IterState)
      = stateAt area base t 0 := rfl
  rw [solveLength, h0, lengthIterGo_stateAt]

theorem stopIdx_ge (area base t : ℚ) :
    ∀ (fuel k : ℕ), k ≤ stopIdx area base t k fuel := by
  intro fuel
  induction fuel with
  | zero => intro k; exact le_refl k
  | succ n ih =>
    intro k
    rw [stopIdx]
    by_cases h : fpSeq area base t k * tolerance < fpErr area base t k
    · rw [if_pos h]; exact le_trans (Nat.le_succ k) (ih (k+1))
    · rw [if_neg h]

theorem stopIdx_le (area base t : ℚ) :
    ∀ (fuel k : ℕ), stopIdx area base t k fuel ≤ k + fuel := by
  intro fuel
  induction fuel with
  | zero => intro k; exact Nat.le_add_right k 0
  | succ n ih =>
    intro k
    rw [stopIdx]
    by_cases h : fpSeq area base t k * tolerance < fpErr area base t k
    · rw [if_pos h]; exact le_trans (ih (k+1)) (by omega)
    · rw [if_neg h]; omega

theorem stopIdx_min (area base t : ℚ) :
    ∀ (fuel k j : ℕ), k ≤ j → j < stopIdx area base t k fuel →
      fpSeq area base t j * tolerance < fpErr area base t j := by
  intro fuel
  induction fuel with
  | zero =>
    intro k j hkj hj
    have e : stopIdx area base t k 0 = k := rfl
    rw [e] at hj; omega
  | succ n ih =>
    intro k j hkj hj
    rw [stopIdx] at hj
    by_cases h : fpSeq area base t k * tolerance < fpErr area base t k
    · rw [if_pos h] at hj
      rcases eq_or_lt_of_le hkj with rfl | hlt
      · exact h
      · exact ih (k+1) j hlt hj
    · rw [if_neg h] at hj; omega

theorem stopIdx_stop (area base t : ℚ) :
    ∀ (fuel k : ℕ), stopIdx area base t k fuel < k + fuel →
      ¬(fpSeq area base t (stopIdx area base t k fuel) * tolerance
          < fpErr area base t (stopIdx area base t k fuel)) := by
  intro fuel
  induction fuel with
  | zero =>
    intro k hk
    have e : stopIdx area base t k 0 = k := rfl
    rw [e] at hk; omega
  | succ n ih =>
    intro k hk
    rw [stopIdx] at hk ⊢
    by_cases h : fpSeq area base t k * tolerance < fpErr area base t k
    · rw [if_pos h] at hk ⊢
      exact ih (k+1) (by omega)
    · rw [if_neg h] at hk ⊢
      exact h

/-- Loop invariant of `solveLength`: once at least one iteration has run, the
stored length is the image of the previous guess under the update map, `err`
is the distance to that previous guess, and `bases[i+1]` holds
`base - 2*len*tan(angle)` for the final length. -/
theorem solveLength_inv (area base t : ℚ)
    (h : 1 ≤ (solveLength area base t).count) :
    (solveLength area base t).len
        = iterNext area base t ((solveLength area base t).prev) ∧
    (solveLength area base t).err
        = |(solveLength area base t).len - (solveLength area base t).prev| ∧
    (solveLength area base t).nextBase
        = some (base - 2 * (solveLength area base t).len * t) := by
  rw [solveLength_eq_stateAt] at h ⊢
  rcases hK : stopIdx area base t 0 100 with _ | m
  · rw [hK] at h; simp [stateAt] at h
  · exact ⟨rfl, rfl, rfl⟩

/-- C1: each section height is computed by fixed-point iteration with initial
guess `areas[i]/bases[i]`, update `lengths[i] = areas[i]/(bases[i] -
lengths[i]*tan(angle))` together with `bases[i+1] = bases[i] -
2*lengths[i]*tan(angle)`, stopping as soon as the latest update moved by at
most `lengths[i] * 1e-4` or after at most 100 iterations; at the cap the last
estimate is kept and no error is raised (the function returns normally).  The
hypothesis states that the sentinel initial error `999999` exceeds the initial
tolerance threshold, i.e. the loop body runs at least once. -/
theorem solveLength_fixed_point_characterisation (area base t : ℚ)
    (h : area / base * tolerance < 999999) :
    ∃ K, 1 ≤ K ∧ K ≤ 100 ∧
      (solveLength area base t).len = fpSeq area base t K ∧
      (solveLength area base t).count = K ∧
      (∀ j, 1 ≤ j → j < K →
        fpSeq area base t j * tolerance
          < |fpSeq area base t j - fpSeq area base t (j-1)|) ∧
      (K < 100 →
        |fpSeq area base t K - fpSeq area base t (K-1)|
          ≤ fpSeq area base t K * tolerance) ∧
      (solveLength area base t).nextBase
        = some (base - 2 * fpSeq area base t K * t) := by
  have h0 : fpSeq area base t 0 * tolerance < fpErr area base t 0 := h
  have hK1 : 1 ≤ stopIdx area base t 0 100 := by
    rw [stopIdx, if_pos h0]
    exact le_trans (by omega) (stopIdx_ge area base t 99 1)
  refine ⟨stopIdx area base t 0 100, hK1, ?_, ?_, ?_, ?_, ?_, ?_⟩
  · have := stopIdx_le area base t 100 0; omega
  · rw [solveLength_eq_stateAt]; rfl
  · rw [solveLength_eq_stateAt]; rfl
  · intro j h1 hj
    have := stopIdx_min area base t 100 0 j (Nat.zero_le j) hj
    rcases j with _ | m
    · omega
    · simpa [fpErr] using this
  · intro hlt
    have hs := stopIdx_stop area base t 100 0 (by omega)
    rcases hK : stopIdx area base t 0 100 with _ | m
    · omega
    · rw [hK] at hs
      simpa [fpErr] using not_lt.mp hs
  · rw [solveLength_eq_stateAt]
    rcases hK : stopIdx area base t 0 100 with _ | m
    · omega
    · rfl

/-- C1 witness: the characterisation instantiated at `area = 6000`,
`base = 100`, `tan angle = 2/5` (the defaults-sized single-section funnel);
the hypothesis `(6000/100)*1e-4 < 999999` holds. -/
theorem solveLength_fixed_point_characterisation_witness :
    ∃ K, 1 ≤ K ∧ K ≤ 100 ∧
      (solveLength 6000 100 (2/5)).len = fpSeq 6000 100 (2/5) K ∧
      (solveLength 6000 100 (2/5)).count = K ∧
      (∀ j, 1 ≤ j → j < K →
        fpSeq 6000 100 (2/5) j * tolerance
          < |fpSeq 6000 100 (2/5) j - fpSeq 6000 100 (2/5) (j-1)|) ∧
      (K < 100 →
        |fpSeq 6000 100 (2/5) K - fpSeq 6000 100 (2/5) (K-1)|
          ≤ fpSeq 6000 100 (2/5) K * tolerance) ∧
      (solveLength 6000 100 (2/5)).nextBase
        = some (100 - 2 * fpSeq 6000 100 (2/5) K * (2/5)) :=
  solveLength_fixed_point_characterisation 6000 100 (2/5) (by norm_num [tolerance])

/-- C4: after `init`, the series data is the descending-by-value reordering of
the input (a permutation, sorted by the comparator `b[1] - a[1]`), the original
order is kept unchanged in `_unorderedData`, and on the spec's example
`[(A,10),(B,30),(C,20)]` the stored order is `[(B,30),(C,20),(A,10)]`. -/
theorem init_sorts_descending_keeps_unordered :
    (∀ d : List DataPoint,
        (funnelInitData d).unorderedData = d ∧
        List.Perm (funnelInitData d).data d ∧
        List.Sorted descValue (funnelInitData d).data) ∧
    (funnelInitData [("A", 10), ("B", 30), ("C", 20)]).data
      = [("B", 30), ("C", 20), ("A", 10)] := by
  constructor
  · intro d
    refine ⟨rfl, List.perm_insertionSort descValue d, ?_⟩
    exact List.sorted_insertionSort descValue d
  · norm_num [funnelInitData, List.insertionSort, List.orderedInsert, descValue]

/-- C3 (failing input): on all-zero data the source's `setGridData` raises
nothing and still performs the per-point division `value / sum` with `sum = 0`
(`0 / 0`, `NaN` in JS, `0` in the `ℚ` model), returning a "normalized" list
instead of failing with a `DegenerateInputError`. -/
theorem setGridData_zero_sum_no_error :
    setGridData [("A", 0), ("B", 0)] = [("A", 0), ("B", 0)] ∧
    sumValues [("A", 0), ("B", 0)] = 0 := by
  norm_num [setGridData, sumValues]

/-- C9: `makeGridData` ignores its `data` parameter entirely and returns
exactly the list `setGridData` stores in `this.gridData`; both are the
normalization of the series data by the sum of its values. -/
theorem makeGridData_eq_setGridData :
    ∀ (dp dp' d : List DataPoint),
      makeGridData dp d = setGridData d ∧
      makeGridData dp d = makeGridData dp' d ∧
      setGridData d = d.map (fun p => (p.1, p.2 / sumValues d)) := by
  intro dp dp' d
  refine ⟨rfl, rfl, ?_⟩
  simp [setGridData]

/-- C10: after the `postInit` hook no funnel series has both
`highlightMouseOver` and `highlightMouseDown` set, and `init` disables
`highlightMouseOver` when the options enable `highlightMouseDown` without
specifying `highlightMouseOver`. -/
theorem postInit_no_double_highlight :
    (∀ (ss : List SeriesHL), ∀ s ∈ postInitHook ss, s.isFunnel = true →
        ¬(s.highlightMouseOver = true ∧ s.highlightMouseDown = true)) ∧
    (∀ o : HighlightOptions,
        o.highlightMouseDown = some true → o.highlightMouseOver = none →
        (initHighlight o).1 = false ∧ (initHighlight o).2 = true) := by
  constructor
  · intro ss s hs hf ⟨hov, hdn⟩
    rcases List.mem_map.mp hs with ⟨s0, _, rfl⟩
    by_cases h : s0.isFunnel ∧ s0.highlightMouseOver
    · simp only [h, if_true] at hdn
      exact Bool.false_ne_true hdn
    · simp only [h, if_false] at hov hdn hf
      exact h ⟨hf, hov⟩
  · intro o hdn hov
    simp [initHighlight, hdn, hov]

/-- C10 witness: a funnel series entering `postInit` with both flags set leaves
it with `highlightMouseDown` cleared, and `init` on options with
`highlightMouseDown: true` and unspecified `highlightMouseOver` yields
`highlightMouseOver = false`. -/
theorem postInit_no_double_highlight_witness :
    ¬(((postInitHook [⟨true, true, true⟩]).getD 0 ⟨true, true, true⟩).highlightMouseOver = true ∧
      ((postInitHook [⟨true, true, true⟩]).getD 0 ⟨true, true, true⟩).highlightMouseDown = true) ∧
    (initHighlight ⟨none, some true⟩).1 = false ∧
    (initHighlight ⟨none, some true⟩).2 = true :=
  ⟨postInit_no_double_highlight.1 [⟨true, true, true⟩] _ (by decide) (by decide),
   postInit_no_double_highlight.2 ⟨none, some true⟩ (by decide) (by decide)⟩

theorem findedge_snd (l : ℚ) (q1 q2 : Point) : (findedge l q1 q2).2 = l + q1.2 := rfl

theorem findleft_snd (c : FunnelConfig) (gd : List ℚ) (l : ℚ) :
    (findleft c gd l).2 = l + c.toff := rfl

theorem findright_snd (c : FunnelConfig) (gd : List ℚ) (l : ℚ) :
    (findright c gd l).2 = l + c.toff := rfl

theorem layoutSections_length (t : ℚ) :
    ∀ (as : List ℚ) (b : ℚ), (layoutSections t b as).length = as.length := by
  intro as
  induction as with
  | nil => intro b; rfl
  | cons a as ih =>
    intro b
    rw [layoutSections]
    simp [ih]

theorem lengthsOf_length (c : FunnelConfig) (gd : List ℚ) :
    (lengthsOf c gd).length = gd.length := by
  simp [lengthsOf, sectionsOf, layoutSections_length, areasOf]

/-- Element `k` of the vertex loop: section `k` starts at accumulated height
`h + (sum of the first k lengths)` and its four corners evaluate the left and
right envelope lines at the top and bottom heights adjusted by the `adj`
values of the source. -/
theorem verticesGo_getD (fl fr : ℚ → Point) (sm : ℚ) (n : ℕ) :
    ∀ (Ls : List ℚ) (i0 : ℕ) (h : ℚ) (k : ℕ), k < Ls.length →
      (verticesGo fl fr sm n i0 h Ls).getD k default =
        ⟨fl (h + (Ls.take k).sum + topAdjCode sm n (i0 + k)),
         fr (h + (Ls.take k).sum + topAdjCode sm n (i0 + k)),
         fr (h + (Ls.take (k+1)).sum + botAdjCode sm n (i0 + k)),
         fl (h + (Ls.take (k+1)).sum + botAdjCode sm n (i0 + k))⟩ := by
  intro Ls
  induction Ls with
  | nil => intro i0 h k hk; simp at hk
  | cons L Ls ih =>
    intro i0 h k hk
    cases k with
    | zero =>
      simp only [verticesGo, List.getD_cons_zero, List.take_zero, List.sum_nil,
        List.take_succ_cons, List.take_zero, List.sum_cons, List.sum_nil,
        Nat.add_zero, add_zero]
    | succ k' =>
      have hk' : k' < Ls.length := by simpa using hk
      rw [verticesGo, List.getD_cons_succ, ih (i0+1) (h+L) k' hk']
      have e1 : i0 + 1 + k' = i0 + (k' + 1) := by omega
      simp only [List.take_succ_cons, List.sum_cons, e1]
      congr 2 <;> ring

theorem topAdjCode_of_two_le (sm : ℚ) (n i : ℕ) (h2 : 2 ≤ n) (hi : i < n) :
    topAdjCode sm n i =
      (if i = 0 then 0 else if i = 1 then sm / 3
       else if i < n - 1 then sm / 2 else 2 * sm / 3) := by
  unfold topAdjCode
  split_ifs <;> first | rfl | omega

theorem botAdjCode_of_two_le (sm : ℚ) (n i : ℕ) (h2 : 2 ≤ n) (hi : i < n) :
    botAdjCode sm n i =
      (if i = 0 then -(2 * sm) / 3
       else if i < n - 1 then -(sm / 2) else 0) := by
  unfold botAdjCode
  split_ifs <;> first | rfl | omega

/-- C5 (amended): for a funnel with at least two sections the margin
distribution applied by the vertex loop is: zero inset at the top edge of
section 0; `sectionMargin/3` at the top of section 1 against
`2*sectionMargin/3` at the bottom of section 0 (the 1/3-vs-2/3 split after
section 0); `sectionMargin/2` at both sides of boundaries between internal
sections; but at the boundary before the last section the preceding section's
bottom insets by `sectionMargin/2` while the last section's top insets by
`2*sectionMargin/3` — a 1/2-vs-2/3 split (total gap `7*sectionMargin/6`), not
the mirrored 1/3-vs-2/3 split; and zero inset at the bottom edge of the last
section. -/
theorem margin_distribution_amended (c : FunnelConfig) (gd : List ℚ)
    (h2 : 2 ≤ gd.length) (i : ℕ) (hi : i < gd.length) :
    ((verticesOf c gd).getD i default).tl.2
        = c.toff + ((lengthsOf c gd).take i).sum
          + (if i = 0 then 0
             else if i = 1 then c.sectionMargin / 3
             else if i < gd.length - 1 then c.sectionMargin / 2
             else 2 * c.sectionMargin / 3) ∧
    ((verticesOf c gd).getD i default).tr.2
        = ((verticesOf c gd).getD i default).tl.2 ∧
    ((verticesOf c gd).getD i default).bl.2
        = c.toff + ((lengthsOf c gd).take (i+1)).sum
          + (if i = 0 then -(2 * c.sectionMargin) / 3
             else if i < gd.length - 1 then -(c.sectionMargin / 2)
             else 0) ∧
    ((verticesOf c gd).getD i default).br.2
        = ((verticesOf c gd).getD i default).bl.2 := by
  have hi' : i < (lengthsOf c gd).length := by rw [lengthsOf_length]; exact hi
  have hv := verticesGo_getD (findleft c gd) (findright c gd) c.sectionMargin
    gd.length (lengthsOf c gd) 0 0 i hi'
  rw [verticesOf, hv]
  refine ⟨?_, ?_, ?_, ?_⟩
  · show (findleft c gd (0 + ((lengthsOf c gd).take i).sum
        + topAdjCode c.sectionMargin gd.length (0 + i))).2 = _
    rw [findleft_snd, Nat.zero_add, topAdjCode_of_two_le c.sectionMargin gd.length i h2 hi]
    ring
  · show (findright c gd _).2 = (findleft c gd _).2
    rw [findleft_snd, findright_snd]
  · show (findleft c gd (0 + ((lengthsOf c gd).take (i+1)).sum
        + botAdjCode c.sectionMargin gd.length (0 + i))).2 = _
    rw [findleft_snd, Nat.zero_add, botAdjCode_of_two_le c.sectionMargin gd.length i h2 hi]
    ring
  · show (findright c gd _).2 = (findleft c gd _).2
    rw [findleft_snd, findright_snd]

/-- C5 witness: the amended margin distribution instantiated for section 1 of
the three-section funnel of configuration A. -/
theorem margin_distribution_amended_witness :
    ((verticesOf cfgA gdA).getD 1 default).tl.2
        = cfgA.toff + ((lengthsOf cfgA gdA).take 1).sum
          + (if 1 = 0 then 0
             else if 1 = 1 then cfgA.sectionMargin / 3
             else if 1 < gdA.length - 1 then cfgA.sectionMargin / 2
             else 2 * cfgA.sectionMargin / 3) ∧
    ((verticesOf cfgA gdA).getD 1 default).tr.2
        = ((verticesOf cfgA gdA).getD 1 default).tl.2 ∧
    ((verticesOf cfgA gdA).getD 1 default).bl.2
        = cfgA.toff + ((lengthsOf cfgA gdA).take 2).sum
          + (if 1 = 0 then -(2 * cfgA.sectionMargin) / 3
             else if 1 < gdA.length - 1 then -(cfgA.sectionMargin / 2)
             else 0) ∧
    ((verticesOf cfgA gdA).getD 1 default).br.2
        = ((verticesOf cfgA gdA).getD 1 default).bl.2 :=
  margin_distribution_amended cfgA gdA
    (by simp [gdA, dataA, setGridData]) 1 (by simp [gdA, dataA, setGridData])

/-- C5 (counterexample): in the three-section funnel of configuration A
(`sectionMargin = 6`), the vertical gap between the bottom edge of section 1
and the top edge of the last section is `7 = sectionMargin/2 +
2*sectionMargin/3`, not `sectionMargin = 6` as a (mirrored) 1/3-vs-2/3 split
of the margin at the boundary before the last section would give. -/
theorem margin_mirrored_split_counterexample :
    ((verticesOf cfgA gdA).getD 2 default).tl.2
        - ((verticesOf cfgA gdA).getD 1 default).bl.2 = 7 ∧
    ¬(((verticesOf cfgA gdA).getD 2 default).tl.2
        - ((verticesOf cfgA gdA).getD 1 default).bl.2 = cfgA.sectionMargin) := by
  have hn : gdA.length = 3 := by simp [gdA, dataA, setGridData]
  have h1 : (1 : ℕ) < (lengthsOf cfgA gdA).length := by
    rw [lengthsOf_length, hn]; omega
  have h2 : (2 : ℕ) < (lengthsOf cfgA gdA).length := by
    rw [lengthsOf_length, hn]; omega
  have hv1 := verticesGo_getD (findleft cfgA gdA) (findright cfgA gdA)
    cfgA.sectionMargin gdA.length (lengthsOf cfgA gdA) 0 0 1 h1
  have hv2 := verticesGo_getD (findleft cfgA gdA) (findright cfgA gdA)
    cfgA.sectionMargin gdA.length (lengthsOf cfgA gdA) 0 0 2 h2
  rw [verticesOf, hv1, hv2]
  show (findleft cfgA gdA _).2 - (findleft cfgA gdA _).2 = 7 ∧
    ¬((findleft cfgA gdA _).2 - (findleft cfgA gdA _).2 = cfgA.sectionMargin)
  rw [findleft_snd, findleft_snd, hn]
  norm_num [topAdjCode, botAdjCode, cfgA]

/-- C6 (amended): for a funnel with exactly one data point the layout produces
exactly one trapezoid, but margin insets ARE applied to it: its top edge lies
on the envelope side lines at `2*sectionMargin/3` below the envelope top and
its bottom edge at the solver-computed section height minus
`2*sectionMargin/3` (the `i == 0` bottom branch and the `i == n-1` top branch
both fire when `n = 1`).  Only with `sectionMargin = 0` does the section reach
from the envelope top to the computed height (which approximates the plot
height within the solver tolerance, not exactly). -/
theorem single_section_amended (c : FunnelConfig) (w : ℚ) :
    verticesOf c [w] =
      [⟨findleft c [w] (2 * c.sectionMargin / 3),
        findright c [w] (2 * c.sectionMargin / 3),
        findright c [w] ((lengthsOf c [w]).getD 0 0 + -(2 * c.sectionMargin) / 3),
        findleft c [w] ((lengthsOf c [w]).getD 0 0 + -(2 * c.sectionMargin) / 3)⟩] := by
  obtain ⟨L, hL⟩ : ∃ L, lengthsOf c [w] = [L] :=
    ⟨(solveLength (w * atot c) (base0 c) (tanAngle c)).len,
     by simp [lengthsOf, sectionsOf, areasOf, layoutSections]⟩
  rw [verticesOf, hL]
  simp only [List.length_cons, List.length_nil, List.getD_cons_zero]
  simp only [verticesGo, topAdjCode, botAdjCode]
  norm_num

/-- C6 (counterexample): with the default options (`sectionMargin = 6`,
`widthRatio = 1/5`, 20px padding) and a single data point, the section's
top-left vertex lies at `y = 24`, not at the envelope top `y = toff = 20`:
the claimed "no margin insets" and "spans the full envelope" fail. -/
theorem single_section_counterexample :
    ((verticesOf cfgS [1]).getD 0 default).tl.2 = 24 ∧
    cfgS.toff = 20 ∧
    ¬(((verticesOf cfgS [1]).getD 0 default).tl.2 = cfgS.toff) := by
  have h0 : (0 : ℕ) < (lengthsOf cfgS [1]).length := by
    rw [lengthsOf_length]; simp
  have hv := verticesGo_getD (findleft cfgS [1]) (findright cfgS [1])
    cfgS.sectionMargin ([1] : List ℚ).length (lengthsOf cfgS [1]) 0 0 0 h0
  rw [verticesOf, hv]
  show ((findleft cfgS [1] _).2 = 24) ∧ _
  rw [findleft_snd]
  norm_num [topAdjCode, cfgS]

theorem checkIntersectionGo_eq_some (x y : ℚ) (vf vl : Quad) :
    ∀ (l : List Quad) (i0 r : ℕ),
      (checkIntersectionGo x y vf vl i0 l = some r ↔
        ∃ k, k < l.length ∧ r = i0 + k ∧
          hitHere x y vf vl (l.getD k default) ∧
          ∀ j, j < k → ¬ hitHere x y vf vl (l.getD j default)) := by
  intro l
  induction l with
  | nil =>
    intro i0 r
    simp [checkIntersectionGo]
  | cons cv rest ih =>
    intro i0 r
    rw [checkIntersectionGo]
    by_cases hcv : hitHere x y vf vl cv
    · rw [if_pos hcv]
      constructor
      · intro h
        have hr : i0 = r := by simpa using h
        exact ⟨0, by simp, by omega, by simpa using hcv, by omega⟩
      · rintro ⟨k, hk, hr, hhit, hmin⟩
        cases k with
        | zero => simp [hr]
        | succ k' => exact absurd hcv (by simpa using hmin 0 (Nat.succ_pos k'))
    · rw [if_neg hcv, ih (i0+1) r]
      constructor
      · rintro ⟨k, hk, hr, hhit, hmin⟩
        refine ⟨k+1, by simpa using hk, by omega, by simpa using hhit, ?_⟩
        intro j hj
        cases j with
        | zero => simpa using hcv
        | succ j' => simpa using hmin j' (by omega)
      · rintro ⟨k, hk, hr, hhit, hmin⟩
        cases k with
        | zero => exact absurd (by simpa using hhit) hcv
        | succ k' =>
          refine ⟨k', by simpa using hk, by omega, by simpa using hhit, ?_⟩
          intro j hj
          simpa using hmin (j+1) (by omega)

theorem checkIntersectionGo_eq_none (x y : ℚ) (vf vl : Quad) :
    ∀ (l : List Quad) (i0 : ℕ),
      (checkIntersectionGo x y vf vl i0 l = none ↔
        ∀ k, k < l.length → ¬ hitHere x y vf vl (l.getD k default)) := by
  intro l
  induction l with
  | nil => intro i0; simp [checkIntersectionGo]
  | cons cv rest ih =>
    intro i0
    rw [checkIntersectionGo]
    by_cases hcv : hitHere x y vf vl cv
    · rw [if_pos hcv]
      constructor
      · intro h; exact absurd h (by simp)
      · intro h; exact absurd hcv (by simpa using h 0 (by simp))
    · rw [if_neg hcv, ih (i0+1)]
      constructor
      · intro h k hk
        cases k with
        | zero => simpa using hcv
        | succ k' => simpa using h k' (by simpa using hk)
      · intro h k hk
        simpa using h (k+1) (by simpa using hk)

/-- C2: for every pointer position `(x, y)` and every vertex list with at
least one section, the hit tester returns `some i` exactly when section `i`
is the first (top to bottom) whose vertical range `[cv[0].y, cv[3].y]`
contains `y` and whose envelope-line bounds — the line through the first
section's top-left and last section's bottom-left and the line through the
first section's top-right and last section's bottom-right, evaluated by
`findedge` at the pointer's `y`, not the section's own inset edges — contain
`x`; it returns `none` exactly when no section passes both tests. -/
theorem checkIntersection_first_match (x y : ℚ) (v : List Quad) (hv : v ≠ []) :
    (∀ i, checkIntersection x y v = some i ↔
        (i < v.length ∧
         hitHere x y (v.getD 0 default) (v.getLast hv) (v.getD i default) ∧
         ∀ j, j < i →
           ¬ hitHere x y (v.getD 0 default) (v.getLast hv) (v.getD j default))) ∧
    (checkIntersection x y v = none ↔
        ∀ i, i < v.length →
          ¬ hitHere x y (v.getD 0 default) (v.getLast hv) (v.getD i default)) := by
  obtain ⟨f, rest, rfl⟩ : ∃ f rest, v = f :: rest := by
    cases v with
    | nil => exact absurd rfl hv
    | cons f rest => exact ⟨f, rest, rfl⟩
  constructor
  · intro i
    rw [checkIntersection, checkIntersectionGo_eq_some]
    constructor
    · rintro ⟨k, hk, rfl, hhit, hmin⟩
      exact ⟨by simpa using hk, by simpa using hhit, by simpa using hmin⟩
    · rintro ⟨hi, hhit, hmin⟩
      exact ⟨i, hi, by omega, hhit, hmin⟩
  · rw [checkIntersection, checkIntersectionGo_eq_none]
    exact Iff.rfl

/-- C2 witness: on a concrete two-section geometry the pointer `(50, 15)`
falls in the second section's vertical range and inside the envelope lines,
so the hit tester returns index 1. -/
theorem checkIntersection_first_match_witness :
    checkIntersection 50 15
      [⟨(0, 0), (100, 0), (95, 10), (5, 10)⟩,
       ⟨(5, 10), (95, 10), (90, 20), (10, 20)⟩] = some 1 := by
  apply ((checkIntersection_first_match 50 15
      [⟨(0, 0), (100, 0), (95, 10), (5, 10)⟩,
       ⟨(5, 10), (95, 10), (90, 20), (10, 20)⟩] (by simp)).1 1).mpr
  refine ⟨by norm_num, ?_, ?_⟩
  · norm_num [hitHere, findedge, List.getLast]
  · intro j hj
    have hj0 : j = 0 := by omega
    subst hj0
    norm_num [hitHere, findedge, List.getLast]

theorem rat_abs_eval (q : ℚ) : |q| = if q < 0 then -q else q := by
  rcases lt_or_ge q 0 with h | h
  · rw [if_pos h, abs_of_neg h]
  · rw [if_neg (not_lt.mpr h), abs_of_nonneg h]

theorem lengthIterGo_step (area base t : ℚ) (fuel : ℕ) (s : IterState)
    (h : s.len * tolerance < s.err) :
    lengthIterGo area base t (fuel+1) s =
      lengthIterGo area base t fuel
        ⟨iterNext area base t s.len,
         |iterNext area base t s.len - s.len|,
         s.len,
         some (base - 2 * iterNext area base t s.len * t),
         s.count + 1⟩ := by
  rw [lengthIterGo]
  exact if_pos h

theorem lengthIterGo_done (area base t : ℚ) (fuel : ℕ) (s : IterState)
    (h : ¬(s.len * tolerance < s.err)) :
    lengthIterGo area base t (fuel+1) s = s := by
  rw [lengthIterGo]
  exact if_neg h

/-- C8: hit-testing the centroid of each section's quadrilateral returns that
section's index, over a representative pair of configurations: the
three-section funnel of configuration A (`widthRatio = 3/4`,
`sectionMargin = 6`) and the two-section funnel of configuration B
(`widthRatio = 9/10`, `sectionMargin = 0`), both with weights produced by
`setGridData` from positive data. -/
theorem centroid_hit_test_round_trip :
    (verticesOf cfgA gdA).length = 3 ∧
    checkIntersection (centroid ((verticesOf cfgA gdA).getD 0 default)).1
      (centroid ((verticesOf cfgA gdA).getD 0 default)).2 (verticesOf cfgA gdA) = some 0 ∧
    checkIntersection (centroid ((verticesOf cfgA gdA).getD 1 default)).1
      (centroid ((verticesOf cfgA gdA).getD 1 default)).2 (verticesOf cfgA gdA) = some 1 ∧
    checkIntersection (centroid ((verticesOf cfgA gdA).getD 2 default)).1
      (centroid ((verticesOf cfgA gdA).getD 2 default)).2 (verticesOf cfgA gdA) = some 2 ∧
    (verticesOf cfgB gdB).length = 2 ∧
    checkIntersection (centroid ((verticesOf cfgB gdB).getD 0 default)).1
      (centroid ((verticesOf cfgB gdB).getD 0 default)).2 (verticesOf cfgB gdB) = some 0 ∧
    checkIntersection (centroid ((verticesOf cfgB gdB).getD 1 default)).1
      (centroid ((verticesOf cfgB gdB).getD 1 default)).2 (verticesOf cfgB gdB) = some 1 := by
  norm_num [verticesOf, lengthsOf, sectionsOf, layoutSections, areasOf, solveLength,
    lengthIterGo_step, lengthIterGo_done, iterNext, tolerance, rat_abs_eval,
    gdA, dataA, cfgA, gdB, dataB, cfgB, setGridData, sumValues, base0, plotHeight,
    atot, tanAngle, verticesGo, topAdjCode, botAdjCode, findleft, findright,
    findedge, p0, p1, p2, p3, lastBase, centroid, checkIntersection,
    checkIntersectionGo, hitHere, List.getLast]

/-- When a section's loop stopped with the tolerance met, the area equation
holds up to `t * tolerance * len²`: the residual of
`area = len * (base - len * tan angle)` is `len * t * (len - prev)`. -/
theorem solveLength_conv_area_bound (a b t : ℚ) (ht : 0 ≤ t)
    (h1 : 1 ≤ (solveLength a b t).count)
    (he : (solveLength a b t).err ≤ (solveLength a b t).len * tolerance)
    (hd : b - (solveLength a b t).prev * t ≠ 0) :
    |a - (solveLength a b t).len * (b - (solveLength a b t).len * t)|
      ≤ t * tolerance * ((solveLength a b t).len * (solveLength a b t).len) := by
  obtain ⟨hlen, herr, -⟩ := solveLength_inv a b t h1
  set L := (solveLength a b t).len with hL
  set p := (solveLength a b t).prev with hp
  have ha : a = L * (b - p * t) := by
    rw [hlen]
    rw [iterNext, div_mul_cancel₀ _ hd]
  have htolpos : (0:ℚ) < tolerance := by norm_num [tolerance]
  have h0 : (0:ℚ) ≤ (solveLength a b t).err := by
    rw [herr]; exact abs_nonneg _
  have hL0 : 0 ≤ L := by
    by_contra hneg
    push_neg at hneg
    have : L * tolerance < 0 := mul_neg_of_neg_of_pos hneg htolpos
    have := le_trans h0 he
    linarith
  have herr' : |L - p| ≤ L * tolerance := by
    rw [← herr]; exact he
  have habs : |a - L * (b - L * t)| = L * t * |L - p| := by
    have e : a - L * (b - L * t) = L * t * (L - p) := by rw [ha]; ring
    rw [e, abs_mul, abs_of_nonneg (mul_nonneg hL0 ht)]
  calc |a - L * (b - L * t)| = L * t * |L - p| := habs
    _ ≤ L * t * (L * tolerance) :=
        mul_le_mul_of_nonneg_left herr' (mul_nonneg hL0 ht)
    _ = t * tolerance * (L * L) := by ring

/-- The accumulated area error of the chained section loops: the sum of the
requested areas differs from the area of the stacked trapezoids —
`b*H - t*H²` for total height `H`, since the bases telescope with
`bases[i+1] = bases[i] - 2*len*t` — by at most `t * tolerance * Σ len²`. -/
theorem layoutSections_area_sum_bound (t : ℚ) (ht : 0 ≤ t) :
    ∀ (as : List ℚ) (b : ℚ),
      (∀ p ∈ layoutSections t b as,
          1 ≤ p.2.count ∧ p.2.err ≤ p.2.len * tolerance ∧
          p.1 - p.2.prev * t ≠ 0) →
      |as.sum - (b * secLengthSum (layoutSections t b as)
          - t * secLengthSum (layoutSections t b as)
              * secLengthSum (layoutSections t b as))|
        ≤ t * tolerance * secSqSum (layoutSections t b as) := by
  intro as
  induction as with
  | nil =>
    intro b hp
    simp [layoutSections, secLengthSum, secSqSum]
  | cons a as ih =>
    intro b hp
    simp only [layoutSections] at hp ⊢
    obtain ⟨h1, he, hd⟩ := hp _ (List.mem_cons_self _ _)
    obtain ⟨-, -, hnb⟩ := solveLength_inv a b t h1
    have hb' : (solveLength a b t).nextBase.getD 0
        = b - 2 * (solveLength a b t).len * t := by rw [hnb]; rfl
    have htail := ih ((solveLength a b t).nextBase.getD 0)
      (fun p hp' => hp p (List.mem_cons_of_mem _ hp'))
    rw [hb'] at htail ⊢
    set L := (solveLength a b t).len with hL
    set H := secLengthSum (layoutSections t (b - 2 * L * t) as) with hH
    set S := secSqSum (layoutSections t (b - 2 * L * t) as) with hS
    have hHc : secLengthSum ((b, solveLength a b t)
        :: layoutSections t (b - 2 * L * t) as) = L + H := by
      simp [secLengthSum, hH]
    have hSc : secSqSum ((b, solveLength a b t)
        :: layoutSections t (b - 2 * L * t) as) = L * L + S := by
      simp [secSqSum, hS]
    rw [hHc, hSc, List.sum_cons]
    have hhead := solveLength_conv_area_bound a b t ht h1 he hd
    have key : a + as.sum - (b * (L + H) - t * (L + H) * (L + H))
        = (a - L * (b - L * t))
          + (as.sum - ((b - 2 * L * t) * H - t * H * H)) := by ring
    rw [key]
    calc |(a - L * (b - L * t)) + (as.sum - ((b - 2 * L * t) * H - t * H * H))|
        ≤ |a - L * (b - L * t)| + |as.sum - ((b - 2 * L * t) * H - t * H * H)| :=
          abs_add _ _
      _ ≤ t * tolerance * (L * L) + t * tolerance * S := add_le_add hhead htail
      _ = t * tolerance * (L * L + S) := by ring

theorem sum_map_mul_const (x : ℚ) :
    ∀ (l : List ℚ), (l.map (fun w => w * x)).sum = l.sum * x := by
  intro l
  induction l with
  | nil => simp
  | cons a l ih => simp [List.map_cons, List.sum_cons, ih]; ring

/-- C7: for weights summing to 1 (with a nondegenerate plot height and a
nonnegative wall tangent), when every section's loop ran at least once,
stopped with the tolerance met, and had a nonzero update denominator, the
solved heights sum to the plot height up to the iteration tolerance:
`|Σ lengths - plotHeight|` times the width factor
`|bases[0] - tan·(plotHeight + Σ lengths)|` (approximately the funnel's
bottom width) is at most `tan · tolerance · Σ lengths²`. -/
theorem lengths_sum_close_to_plot_height (c : FunnelConfig) (gd : List ℚ)
    (hsum : gd.sum = 1)
    (hph : plotHeight c ≠ 0)
    (ht : 0 ≤ tanAngle c)
    (hconv : ∀ p ∈ sectionsOf c gd,
        1 ≤ p.2.count ∧ p.2.err ≤ p.2.len * tolerance ∧
        p.1 - p.2.prev * tanAngle c ≠ 0) :
    |secLengthSum (sectionsOf c gd) - plotHeight c|
        * |base0 c - tanAngle c * (plotHeight c + secLengthSum (sectionsOf c gd))|
      ≤ tanAngle c * tolerance * secSqSum (sectionsOf c gd) := by
  simp only [sectionsOf] at hconv ⊢
  have hb := layoutSections_area_sum_bound (tanAngle c) ht (areasOf c gd)
    (base0 c) hconv
  have hareas : (areasOf c gd).sum = atot c := by
    rw [areasOf, sum_map_mul_const, hsum, one_mul]
  have hatot : atot c = plotHeight c * base0 c
      - tanAngle c * plotHeight c * plotHeight c := by
    rw [atot, tanAngle]
    field_simp
    ring
  set H := secLengthSum (layoutSections (tanAngle c) (base0 c) (areasOf c gd))
  calc |H - plotHeight c| * |base0 c - tanAngle c * (plotHeight c + H)|
      = |(H - plotHeight c) * (base0 c - tanAngle c * (plotHeight c + H))| := by
        rw [abs_mul]
    _ = |(areasOf c gd).sum - (base0 c * H - tanAngle c * H * H)| := by
        rw [abs_sub_comm ((areasOf c gd).sum) _]
        congr 1
        rw [hareas, hatot]
        ring
    _ ≤ tanAngle c * tolerance
          * secSqSum (layoutSections (tanAngle c) (base0 c) (areasOf c gd)) := hb

/-- C7 witness: the bound instantiated for configuration A with weights
`[1/2, 1/3, 1/6]`; all convergence hypotheses hold for its three solver
loops. -/
theorem lengths_sum_close_to_plot_height_witness :
    |secLengthSum (sectionsOf cfgA gdA) - plotHeight cfgA|
        * |base0 cfgA - tanAngle cfgA * (plotHeight cfgA + secLengthSum (sectionsOf cfgA gdA))|
      ≤ tanAngle cfgA * tolerance * secSqSum (sectionsOf cfgA gdA) :=
  lengths_sum_close_to_plot_height cfgA gdA
    (by norm_num [gdA, dataA, setGridData, sumValues, List.sum_cons])
    (by norm_num [plotHeight, cfgA])
    (by norm_num [tanAngle, base0, plotHeight, cfgA])
    (by norm_num [sectionsOf, layoutSections, areasOf, solveLength,
      lengthIterGo_step, lengthIterGo_done, iterNext, tolerance, rat_abs_eval,
      gdA, dataA, cfgA, setGridData, sumValues, base0, plotHeight, atot,
      tanAngle])

end Funnel
